import Mathlib

/-!
Shallow embedding of the rate-limited transport core of the
spacetraders-client repository.

Conventions of the embedding:
* Go `time.Time` instants and `time.Duration` values are modelled as
  unbounded integers counting nanoseconds.  Go `int` is modelled as an
  unbounded integer, except inside `strconv` parsing where the 64-bit
  saturation of `strconv.Atoi` / `strconv.ParseInt` is observable and is
  modelled explicitly.
* The mutex in the source serializes every bucket operation, so a
  concurrent execution is modelled as a sequence of atomic operations,
  each tagged with the wall-clock instant `now` at which `time.Now()`
  was read inside the critical section.
* Library calls that are external to the repository (`json.Unmarshal`
  into `schema.APIError`, `time.Parse` with the RFC-3339 layout) are
  passed in as explicit function parameters.
-/

namespace Ratelimit

/-- State of `ratelimit.TokenBucket` (mutex omitted: operations are atomic
steps of this state). -/
structure TokenBucket where
  capacity : Int
  tokens : Int
  refillRate : Int
  lastRefill : Int
deriving DecidableEq, Repr

/-- `NewCustomTokenBucket`: custom parameters, bucket starts full. -/
def NewCustomTokenBucket (capacity refillRate now : Int) : TokenBucket :=
  { capacity := capacity
    tokens := capacity
    refillRate := refillRate
    lastRefill := now }

/-- `NewTokenBucket`: 30 burst capacity, one token per 500ms. -/
def NewTokenBucket (now : Int) : TokenBucket :=
  { capacity := 30
    tokens := 30
    refillRate := 500 * 1000000
    lastRefill := now }

/-- `refill`: lazy refill accounting.  `tokensToAdd` is Go integer division
of two `time.Duration` values, which truncates toward zero (`Int.tdiv`).
Note the source sets `lastRefill := now`, not `lastRefill + tokensToAdd *
refillRate`.  Token arithmetic is unbounded here; `refillI64` below makes
the source's 64-bit wraparound of `tokens += tokensToAdd` explicit for the
properties where that overflow is observable. -/
def refill (tb : TokenBucket) (now : Int) : TokenBucket :=
  let elapsed := now - tb.lastRefill
  let tokensToAdd := Int.tdiv elapsed tb.refillRate
  if tokensToAdd > 0 then
    let t := tb.tokens + tokensToAdd
    { tb with tokens := if t > tb.capacity then tb.capacity else t, lastRefill := now }
  else
    tb

/-- `Allow`: refill, then consume a token if one is available. -/
def Allow (tb : TokenBucket) (now : Int) : Bool × TokenBucket :=
  let tb := refill tb now
  if tb.tokens > 0 then (true, { tb with tokens := tb.tokens - 1 })
  else (false, tb)

/-- `TryAllow`: refill, then consume a token if one is available (the
source body is identical to `Allow`). -/
def TryAllow (tb : TokenBucket) (now : Int) : Bool × TokenBucket :=
  let tb := refill tb now
  if tb.tokens > 0 then (true, { tb with tokens := tb.tokens - 1 })
  else (false, tb)

/-- `Reset`: restore full capacity and reset the refill instant. -/
def Reset (tb : TokenBucket) (now : Int) : TokenBucket :=
  { tb with tokens := tb.capacity, lastRefill := now }

/-- `ratelimit.BucketState`: the snapshot returned by `GetState`. -/
structure BucketState where
  Tokens : Int
  Capacity : Int
  LastRefill : Int
  RefillRate : Int
deriving DecidableEq, Repr

/-- `GetState`: refill, then report the state; it also returns the
mutated bucket (the source mutates the receiver through the pointer). -/
def GetState (tb : TokenBucket) (now : Int) : BucketState × TokenBucket :=
  let tb := refill tb now
  ({ Tokens := tb.tokens
     Capacity := tb.capacity
     LastRefill := tb.lastRefill
     RefillRate := tb.refillRate }, tb)

/-- `BucketState.IsEmpty`. -/
def BucketState.IsEmpty (bs : BucketState) : Bool :=
  bs.Tokens ≤ 0

/-- `BucketState.IsFull`. -/
def BucketState.IsFull (bs : BucketState) : Bool :=
  bs.Tokens ≥ bs.Capacity

/-- `BucketState.Utilization`.  The source returns a `float64`; the claims
only concern the guarded `capacity == 0` branch, which returns the literal
`0.0`, so the division branch is modelled as exact rational division. -/
def BucketState.Utilization (bs : BucketState) : Rat :=
  if bs.Capacity = 0 then 0 else (bs.Tokens : Rat) / (bs.Capacity : Rat)

/-- One serialized bucket operation, tagged with the instant at which
`time.Now()` is read inside the critical section.  A `Wait` call is a
sequence of `allow` attempts, so its state effects are covered by `allow`
steps. -/
inductive Op where
  | tryAllow (now : Int)
  | allow (now : Int)
  | reset (now : Int)
  | getState (now : Int)
deriving DecidableEq, Repr

/-- State effect of one serialized operation. -/
def applyOp (tb : TokenBucket) : Op → TokenBucket
  | .tryAllow now => (TryAllow tb now).2
  | .allow now => (Allow tb now).2
  | .reset now => Reset tb now
  | .getState now => (GetState tb now).2

/-- Run a serialized sequence of operations. -/
def runOps (tb : TokenBucket) (ops : List Op) : TokenBucket :=
  ops.foldl applyOp tb

/-- Tokens effectively added by the refill accounting at instant `now`
(after clamping to capacity). -/
def refillAdded (tb : TokenBucket) (now : Int) : Int :=
  (refill tb now).tokens - tb.tokens

/-- Instrumented run state: the bucket together with ghost counters for
the number of successful admissions, the tokens added by refill
accounting, and the tokens restored by `Reset` calls. -/
structure RunStats where
  tb : TokenBucket
  admitted : Nat
  refilled : Int
  resetAdded : Int
deriving DecidableEq, Repr

/-- One serialized operation with ghost accounting. -/
def stepStats (s : RunStats) : Op → RunStats
  | .tryAllow now =>
    { tb := (TryAllow s.tb now).2
      admitted := s.admitted + (if (TryAllow s.tb now).1 then 1 else 0)
      refilled := s.refilled + refillAdded s.tb now
      resetAdded := s.resetAdded }
  | .allow now =>
    { tb := (Allow s.tb now).2
      admitted := s.admitted + (if (Allow s.tb now).1 then 1 else 0)
      refilled := s.refilled + refillAdded s.tb now
      resetAdded := s.resetAdded }
  | .reset now =>
    { tb := Reset s.tb now
      admitted := s.admitted
      refilled := s.refilled
      resetAdded := s.resetAdded + (s.tb.capacity - s.tb.tokens) }
  | .getState now =>
    { tb := (GetState s.tb now).2
      admitted := s.admitted
      refilled := s.refilled + refillAdded s.tb now
      resetAdded := s.resetAdded }

/-- Instrumented run of a serialized sequence of operations. -/
def runStats (tb : TokenBucket) (ops : List Op) : RunStats :=
  ops.foldl stepStats { tb := tb, admitted := 0, refilled := 0, resetAdded := 0 }

/-- Run a sequence of `TryAllow` calls, collecting the returned booleans. -/
def tryAllowRun (tb : TokenBucket) : List Int → List Bool × TokenBucket
  | [] => ([], tb)
  | now :: rest =>
    match TryAllow tb now with
    | (ok, tb') =>
      match tryAllowRun tb' rest with
      | (res, tbf) => (ok :: res, tbf)

/-- Outcome of the `Wait` loop after finitely many iterations:
`ok` = a permit was obtained, `cancelled` = the context fired at a
suspension point, `running` = the loop is still going. -/
inductive WaitOutcome where
  | ok (tb : TokenBucket)
  | cancelled (tb : TokenBucket)
  | running (tb : TokenBucket)
deriving DecidableEq, Repr

/-- `Wait`: each round `(now, ctxDone)` gives the instant of the `Allow`
attempt and whether the context's cancellation has fired when the loop
reaches the `select` after a failed attempt.  The computed sleep duration
does not affect which `select` branch is taken, so it is not modelled. -/
def waitRun : TokenBucket → List (Int × Bool) → WaitOutcome
  | tb, [] => .running tb
  | tb, (now, ctxDone) :: rest =>
    match Allow tb now with
    | (true, tb') => .ok tb'
    | (false, tb') =>
      if ctxDone then .cancelled tb'
      else waitRun tb' rest

/-- Bucket state transition of one failed-or-successful `Wait` round. -/
def waitStep (tb : TokenBucket) (r : Int × Bool) : TokenBucket :=
  (Allow tb r.1).2

/-- Bucket state reached after the first `i` rounds of the `Wait` loop. -/
def waitIter (tb : TokenBucket) (rounds : List (Int × Bool)) (i : Nat) : TokenBucket :=
  (rounds.take i).foldl waitStep tb

/-- Whether the `Wait` loop ended with the context's error. -/
def WaitOutcome.isCancelled : WaitOutcome → Bool
  | .cancelled _ => true
  | _ => false

/-- The documented bucket invariant: `0 <= tokens <= capacity`. -/
def WF (tb : TokenBucket) : Prop :=
  0 ≤ tb.tokens ∧ tb.tokens ≤ tb.capacity

/-- Ghost accounting measure: admissions plus remaining tokens minus all
token inflows; each serialized operation preserves it. -/
def statsMeasure (s : RunStats) : Int :=
  (s.admitted : Int) + s.tb.tokens - s.refilled - s.resetAdded

end Ratelimit

namespace Transport

/-- Numeric value of a digit string. -/
def digitsVal (cs : List Char) : Nat :=
  cs.foldl (fun acc c => acc * 10 + (c.toNat - '0'.toNat)) 0

/-- Parse a non-empty all-digit string. -/
def parseDigits (cs : List Char) : Option Nat :=
  if cs ≠ [] ∧ cs.all Char.isDigit then some (digitsVal cs) else none

def maxInt64 : Int := 9223372036854775807

def minInt64 : Int := -9223372036854775808

/-- `strconv.Atoi` (equivalently `strconv.ParseInt(s, 10, 64)` on a 64-bit
platform): optional sign followed by at least one digit; the second
component is `true` when `err == nil`.  On a value outside the signed
64-bit range Go returns the saturated extreme value together with
`ErrRange`. -/
def goAtoi (s : String) : Int × Bool :=
  let signed :=
    match s.data with
    | '+' :: rest => (false, rest)
    | '-' :: rest => (true, rest)
    | cs => (false, cs)
  match parseDigits signed.2 with
  | none => (0, false)
  | some n =>
    let v : Int := if signed.1 then -(n : Int) else (n : Int)
    if v < minInt64 then (minInt64, false)
    else if v > maxInt64 then (maxInt64, false)
    else (v, true)

/-- `parseIntHeader`: empty header is 0; otherwise `strconv.Atoi` with the
error discarded, so a saturated out-of-range value is kept. -/
def parseIntHeader (value : String) : Int :=
  if value = "" then 0 else (goAtoi value).1

/-- `parseTimeHeader`.  A `time.Time` is modelled as `Option Int` (the
instant in Unix nanoseconds) where `none` is the zero `time.Time`.
`rfc3339` abstracts `time.Parse(time.RFC3339, value)`, returning `none` on
a parse error. -/
def parseTimeHeader (rfc3339 : String → Option Int) (value : String) : Option Int :=
  if value = "" then none
  else
    match goAtoi value with
    | (ts, true) => some (ts * 1000000000)
    | (_, false) => rfc3339 value

/-- `transport.RateLimitError`.  `RetryAfter` is a `time.Duration` in
nanoseconds; `Reset` is a `time.Time` modelled as in `parseTimeHeader`. -/
structure RateLimitError where
  «Type» : String
  RetryAfter : Int
  Limit : Int
  Remaining : Int
  Reset : Option Int
deriving DecidableEq, Repr

/-- `handleRateLimitResponse`: extract rate-limit metadata from the
response headers of a 429.  `header` abstracts `resp.Header.Get` (absent
header = `""`). -/
def handleRateLimitResponse (rfc3339 : String → Option Int)
    (header : String → String) : RateLimitError :=
  let retryAfterHeader := header "Retry-After"
  let rateLimitType := header "x-ratelimit-type"
  let retryAfter : Int :=
    if retryAfterHeader ≠ "" then
      match goAtoi retryAfterHeader with
      | (seconds, true) => seconds * 1000000000
      | (_, false) => 0
    else 0
  { «Type» := rateLimitType
    RetryAfter := retryAfter
    Limit := parseIntHeader (header "x-ratelimit-limit")
    Remaining := parseIntHeader (header "x-ratelimit-remaining")
    Reset := parseTimeHeader rfc3339 (header "x-ratelimit-reset") }

/-- `schema.APIError`: the structured error payload of the wire envelope.
The JSON object in `Data` is abstracted by a type parameter. -/
structure SchemaAPIError (D : Type) where
  Message : String
  Code : Int
  Data : Option D
deriving DecidableEq, Repr

/-- `transport.APIError`. -/
structure APIError (D : Type) where
  StatusCode : Int
  Message : String
  Code : Int
  Data : Option D
deriving DecidableEq, Repr

/-- `parseAPIError`: decode the body as `schema.APIError`
(`decode` abstracts `json.Unmarshal`; `none` = decode failure); on failure
fall back to a generic error whose message is the raw body text. -/
def parseAPIError {D : Type} (decode : String → Option (SchemaAPIError D))
    (body : String) (statusCode : Int) : APIError D :=
  match decode body with
  | none => { StatusCode := statusCode, Message := body, Code := 0, Data := none }
  | some e => { StatusCode := statusCode, Message := e.Message, Code := e.Code, Data := e.Data }

/-- The classified error returned by `Do` alongside a `Response`. -/
inductive ClientError (D : Type) where
  | rateLimited (e : RateLimitError)
  | api (e : APIError D)
deriving DecidableEq, Repr

/-- `IsRateLimitError` (`errors.As` against `*RateLimitError`). -/
def IsRateLimitError {D : Type} : ClientError D → Bool
  | .rateLimited _ => true
  | .api _ => false

/-- `IsAuthError` (`errors.As` against `*APIError`, then
`StatusCode == http.StatusUnauthorized`). -/
def IsAuthError {D : Type} : ClientError D → Bool
  | .rateLimited _ => false
  | .api e => e.StatusCode == 401

/-- `transport.Response` after the body has been fully read:
status code, headers (`headers` abstracts `Header.Get`), body text. -/
structure HTTPResponse where
  status : Int
  headers : String → String
  body : String

/-- The response-classification tail of `Do` (source lines after the body
read): 429 first, then any other status `>= 400`, else no error. -/
def classifyStatus {D : Type} (decode : String → Option (SchemaAPIError D))
    (rfc3339 : String → Option Int) (resp : HTTPResponse) : Option (ClientError D) :=
  if resp.status = 429 then
    some (.rateLimited (handleRateLimitResponse rfc3339 resp.headers))
  else if 400 ≤ resp.status then
    some (.api (parseAPIError decode resp.body resp.status))
  else
    none

/-- The error component of `Do`'s result. -/
inductive DoError (D : Type) where
  | cancelled
  | buildFailed
  | transportFailure
  | classified (e : ClientError D)
deriving DecidableEq, Repr

/-- Result of one `Do` call, with ghost flags recording whether the
request-build stage and the network stage were reached. -/
structure DoOutcome (D : Type) where
  response : Option HTTPResponse
  error : Option (DoError D)
  requestBuilt : Bool
  networkAttempted : Bool

/-- `Do`: wait on the rate limiter (`waitCancelled` is the outcome of
`Wait`, see `Ratelimit.waitRun`), build the request (`build` abstracts
`buildRequest`; `none` = build error), execute it (`net` abstracts
`httpClient.Do` plus `io.ReadAll`; `none` = transport failure), then
classify the status. -/
def DoRun {D R : Type} (decode : String → Option (SchemaAPIError D))
    (rfc3339 : String → Option Int) (waitCancelled : Bool)
    (build : Option R) (net : R → Option HTTPResponse) : DoOutcome D :=
  if waitCancelled then
    { response := none, error := some .cancelled
      requestBuilt := false, networkAttempted := false }
  else
    match build with
    | none =>
      { response := none, error := some .buildFailed
        requestBuilt := true, networkAttempted := false }
    | some q =>
      match net q with
      | none =>
        { response := none, error := some .transportFailure
          requestBuilt := true, networkAttempted := true }
      | some resp =>
        { response := some resp
          error := Option.map DoError.classified (classifyStatus decode rfc3339 resp)
          requestBuilt := true, networkAttempted := true }

/-- A simulated 401 response with a non-empty, non-JSON body. -/
def example401 : HTTPResponse :=
  { status := 401, headers := fun _ => "", body := "not json" }

/-- A simulated 404 response. -/
def example404 : HTTPResponse :=
  { status := 404, headers := fun _ => "", body := "missing" }

/-- A simulated 200 response. -/
def example200 : HTTPResponse :=
  { status := 200, headers := fun _ => "", body := "ok" }

end Transport

namespace Ratelimit

/-!
The definitions above model the bucket's token arithmetic with unbounded
integers.  In the Go source `tokens`, `capacity` and `tokensToAdd` are
64-bit machine integers: `tb.tokens += tokensToAdd` wraps around on
overflow (defined two's-complement wraparound in Go), and when the wrapped
sum is negative the `tokens > capacity` clamp does not fire.  The
definitions below repeat the refill-and-consume semantics with that 64-bit
behavior made explicit, for the properties where the overflow is
observable.
-/

def maxI64 : Int := 9223372036854775807

def minI64 : Int := -9223372036854775808

/-- Two's-complement wraparound of Go `int` (64-bit) arithmetic. -/
def wrap64 (x : Int) : Int :=
  (x + 9223372036854775808) % 18446744073709551616 - 9223372036854775808

/-- Go `time.Time.Sub`, which saturates at the extreme `time.Duration`
values instead of wrapping. -/
def satDuration (x : Int) : Int :=
  if x > maxI64 then maxI64
  else if x < minI64 then minI64
  else x

/-- `refill` with the 64-bit machine arithmetic explicit: `elapsed`
saturates (`time.Sub`) and the token addition wraps (`int64` overflow
skips past the clamp when the wrapped sum is negative). -/
def refillI64 (tb : TokenBucket) (now : Int) : TokenBucket :=
  let elapsed := satDuration (now - tb.lastRefill)
  let tokensToAdd := Int.tdiv elapsed tb.refillRate
  if tokensToAdd > 0 then
    let t := wrap64 (tb.tokens + tokensToAdd)
    { tb with tokens := if t > tb.capacity then tb.capacity else t, lastRefill := now }
  else
    tb

/-- `Allow` over the 64-bit-faithful refill. -/
def AllowI64 (tb : TokenBucket) (now : Int) : Bool × TokenBucket :=
  let tb := refillI64 tb now
  if tb.tokens > 0 then (true, { tb with tokens := tb.tokens - 1 })
  else (false, tb)

/-- `TryAllow` over the 64-bit-faithful refill. -/
def TryAllowI64 (tb : TokenBucket) (now : Int) : Bool × TokenBucket :=
  let tb := refillI64 tb now
  if tb.tokens > 0 then (true, { tb with tokens := tb.tokens - 1 })
  else (false, tb)

/-- `GetState` over the 64-bit-faithful refill. -/
def GetStateI64 (tb : TokenBucket) (now : Int) : BucketState × TokenBucket :=
  let tb := refillI64 tb now
  ({ Tokens := tb.tokens
     Capacity := tb.capacity
     LastRefill := tb.lastRefill
     RefillRate := tb.refillRate }, tb)

/-- State effect of one serialized operation, 64-bit-faithful. -/
def applyOpI64 (tb : TokenBucket) : Op → TokenBucket
  | .tryAllow now => (TryAllowI64 tb now).2
  | .allow now => (AllowI64 tb now).2
  | .reset now => Reset tb now
  | .getState now => (GetStateI64 tb now).2

/-- Run a serialized sequence of operations, 64-bit-faithful. -/
def runOpsI64 (tb : TokenBucket) (ops : List Op) : TokenBucket :=
  ops.foldl applyOpI64 tb

/-- The refill pass at instant `now` does not overflow the 64-bit token
addition: either no token is added, or `tokens + tokensToAdd` stays within
the signed 64-bit range. -/
def refillNoWrap (tb : TokenBucket) (now : Int) : Prop :=
  Int.tdiv (satDuration (now - tb.lastRefill)) tb.refillRate ≤ 0 ∨
  tb.tokens + Int.tdiv (satDuration (now - tb.lastRefill)) tb.refillRate ≤ maxI64

/-- The accounting pass of one serialized operation does not overflow. -/
def opNoWrap (tb : TokenBucket) : Op → Prop
  | .tryAllow now => refillNoWrap tb now
  | .allow now => refillNoWrap tb now
  | .reset _ => True
  | .getState now => refillNoWrap tb now

/-- No accounting pass along the serialized trace overflows. -/
def traceNoWrap : TokenBucket → List Op → Prop
  | _, [] => True
  | tb, op :: rest => opNoWrap tb op ∧ traceNoWrap (applyOpI64 tb op) rest

instance (tb : TokenBucket) (now : Int) : Decidable (refillNoWrap tb now) :=
  inferInstanceAs (Decidable (_ ∨ _))

instance (tb : TokenBucket) (op : Op) : Decidable (opNoWrap tb op) :=
  match op with
  | .tryAllow now => inferInstanceAs (Decidable (refillNoWrap tb now))
  | .allow now => inferInstanceAs (Decidable (refillNoWrap tb now))
  | .reset _ => inferInstanceAs (Decidable True)
  | .getState now => inferInstanceAs (Decidable (refillNoWrap tb now))

def traceNoWrapDec : (tb : TokenBucket) → (ops : List Op) → Decidable (traceNoWrap tb ops)
  | _, [] => isTrue trivial
  | tb, op :: rest =>
    have : Decidable (traceNoWrap (applyOpI64 tb op) rest) :=
      traceNoWrapDec (applyOpI64 tb op) rest
    inferInstanceAs (Decidable (opNoWrap tb op ∧ traceNoWrap (applyOpI64 tb op) rest))

instance (tb : TokenBucket) (ops : List Op) : Decidable (traceNoWrap tb ops) :=
  traceNoWrapDec tb ops

end Ratelimit

open Ratelimit Transport

/-! Helper lemmas about the refill accounting. -/

theorem tdiv_nonpos_of_lt {a b : Int} (hab : a < b) (hb : 0 < b) : a.tdiv b ≤ 0 := by
  rcases le_or_lt 0 a with h | h
  · exact le_of_eq (Int.tdiv_eq_zero_of_lt h hab)
  · have h1 : (0 : Int) ≤ -a := by omega
    have h2 := Int.tdiv_nonneg h1 hb.le
    rw [Int.neg_tdiv] at h2
    omega

theorem refill_noop {tb : TokenBucket} {now : Int} (hr : 0 < tb.refillRate)
    (h : now - tb.lastRefill < tb.refillRate) : refill tb now = tb := by
  have hd := tdiv_nonpos_of_lt h hr
  simp only [refill]
  rw [if_neg (by omega)]

theorem refill_capacity (tb : TokenBucket) (now : Int) :
    (refill tb now).capacity = tb.capacity := by
  simp only [refill]
  split <;> rfl

theorem refill_refillRate (tb : TokenBucket) (now : Int) :
    (refill tb now).refillRate = tb.refillRate := by
  simp only [refill]
  split <;> rfl

theorem WF_refill {tb : TokenBucket} (h : WF tb) (now : Int) : WF (refill tb now) := by
  obtain ⟨h0, h1⟩ := h
  simp only [refill, WF]
  split
  · constructor <;> simp <;> split <;> omega
  · exact ⟨h0, h1⟩

/-- Claim C10 theorem: `Allow` and `TryAllow` are extensionally equal — the
same refill-then-conditional-decrement step, the same boolean, the same
resulting bucket. -/
theorem allow_eq_tryAllow (tb : TokenBucket) (now : Int) :
    Allow tb now = TryAllow tb now := rfl

/-- Claim C1 theorem (failing-input evaluation): at the state
`capacity = 2, tokens = 0, refillRate = 10, lastRefill = 0` and `now = 15`
(one and a half intervals elapsed), the refill pass adds one token but sets
`lastRefill` to `now = 15`, not to `lastRefill + 1 * refillRate = 10` as
the spec's refill algorithm prescribes. -/
theorem refill_sets_lastRefill_to_now :
    refill { capacity := 2, tokens := 0, refillRate := 10, lastRefill := 0 } 15
      = { capacity := 2, tokens := 1, refillRate := 10, lastRefill := 15 }
    ∧ (15 : Int) ≠ 0 + 1 * 10 := by
  refine ⟨by decide, by decide⟩

/-! Invariant preservation for the serialized operations. -/

theorem WF_allow {tb : TokenBucket} (h : WF tb) (now : Int) : WF (Allow tb now).2 := by
  have h' := WF_refill h now
  obtain ⟨h0, h1⟩ := h'
  simp only [Allow]
  split <;> constructor <;> simp <;> omega

theorem WF_tryAllow {tb : TokenBucket} (h : WF tb) (now : Int) : WF (TryAllow tb now).2 :=
  WF_allow h now

theorem WF_reset {tb : TokenBucket} (h : WF tb) (now : Int) : WF (Reset tb now) := by
  obtain ⟨h0, h1⟩ := h
  exact ⟨by simp [Reset]; omega, by simp [Reset]⟩

theorem WF_getState {tb : TokenBucket} (h : WF tb) (now : Int) : WF (GetState tb now).2 :=
  WF_refill h now

/-! The bucket invariant over the 64-bit-faithful semantics. -/

theorem wrap64_eq_self {x : Int} (h1 : minI64 ≤ x) (h2 : x ≤ maxI64) : wrap64 x = x := by
  unfold wrap64
  unfold minI64 at h1
  unfold maxI64 at h2
  omega

theorem WF_refillI64 {tb : TokenBucket} (h : WF tb) {now : Int}
    (hnw : refillNoWrap tb now) : WF (refillI64 tb now) := by
  obtain ⟨h0, h1⟩ := h
  rcases hnw with hle | hsum
  · simp only [refillI64, WF]
    rw [if_neg (by omega)]
    exact ⟨h0, h1⟩
  · simp only [refillI64, WF]
    split
    · rename_i hpos
      have hw : wrap64 (tb.tokens + Int.tdiv (satDuration (now - tb.lastRefill)) tb.refillRate)
          = tb.tokens + Int.tdiv (satDuration (now - tb.lastRefill)) tb.refillRate := by
        refine wrap64_eq_self ?_ hsum
        unfold minI64
        omega
      constructor <;> simp [hw] <;> split <;> omega
    · exact ⟨h0, h1⟩

theorem WF_applyOpI64 {tb : TokenBucket} (h : WF tb) {op : Op}
    (hnw : opNoWrap tb op) : WF (applyOpI64 tb op) := by
  cases op with
  | tryAllow now =>
    obtain ⟨h0, h1⟩ := WF_refillI64 h hnw
    simp only [applyOpI64, TryAllowI64]
    split <;> constructor <;> simp <;> omega
  | allow now =>
    obtain ⟨h0, h1⟩ := WF_refillI64 h hnw
    simp only [applyOpI64, AllowI64]
    split <;> constructor <;> simp <;> omega
  | reset now => exact WF_reset h now
  | getState now => exact WF_refillI64 h hnw

theorem WF_runOpsI64 (ops : List Op) : ∀ tb : TokenBucket, WF tb →
    traceNoWrap tb ops → WF (runOpsI64 tb ops) := by
  induction ops with
  | nil => intro tb h _; exact h
  | cons op rest ih =>
    intro tb h hnw
    exact ih _ (WF_applyOpI64 h hnw.1) hnw.2

/-- Counterexample to C2 as stated: on a bucket constructed with capacity
`9223372036854775000` and a 1ns refill interval, a single `TryAllow` pass
1000ns after construction computes `tokensToAdd = 1000`, and the source's
64-bit `tokens += tokensToAdd` wraps `9223372036854775000 + 1000` to
`-9223372036854775616`; the wrapped sum is below capacity so the clamp
does not fire, leaving `tokens` negative and violating `0 <= tokens`. -/
theorem tokens_wrap_negative_counterexample :
    (runOpsI64 (NewCustomTokenBucket 9223372036854775000 1 0) [.tryAllow 1000]).tokens
      = -9223372036854775616 ∧
    ¬ (0 ≤ (runOpsI64 (NewCustomTokenBucket 9223372036854775000 1 0)
        [.tryAllow 1000]).tokens) := by
  refine ⟨by decide, by decide⟩

/-- Claim C2 theorem (amended): starting from any bucket constructed with
`capacity >= 0`, every finite serialized sequence of `TryAllow`, `Allow`,
`Wait`-retry, `Reset` and `GetState` operations (a `Wait` call is a
sequence of `allow` attempts) at arbitrary instants leaves the state with
`0 <= tokens <= capacity`, provided no accounting pass along the trace
overflows the 64-bit token addition (`tokens + tokensToAdd` stays within
the signed 64-bit range whenever `tokensToAdd > 0`). -/
theorem tokens_within_bounds_no_overflow (capacity refillRate t0 : Int) (ops : List Op)
    (hcap : 0 ≤ capacity) (_hr : 0 < refillRate)
    (hnw : traceNoWrap (NewCustomTokenBucket capacity refillRate t0) ops) :
    0 ≤ (runOpsI64 (NewCustomTokenBucket capacity refillRate t0) ops).tokens ∧
    (runOpsI64 (NewCustomTokenBucket capacity refillRate t0) ops).tokens
      ≤ (runOpsI64 (NewCustomTokenBucket capacity refillRate t0) ops).capacity :=
  WF_runOpsI64 ops (NewCustomTokenBucket capacity refillRate t0) ⟨hcap, le_refl _⟩ hnw

/-- Witness for C2: a concrete overflow-free run with an admission, a
refill-eligible read and a reset on a capacity-2 bucket. -/
theorem tokens_within_bounds_no_overflow_witness :
    0 ≤ (2 : Int) ∧ 0 < (10 : Int) ∧
    traceNoWrap (NewCustomTokenBucket 2 10 0)
      [.tryAllow 0, .getState 25, .reset 30, .allow 31] ∧
    (0 ≤ (runOpsI64 (NewCustomTokenBucket 2 10 0)
        [.tryAllow 0, .getState 25, .reset 30, .allow 31]).tokens ∧
     (runOpsI64 (NewCustomTokenBucket 2 10 0)
        [.tryAllow 0, .getState 25, .reset 30, .allow 31]).tokens
       ≤ (runOpsI64 (NewCustomTokenBucket 2 10 0)
        [.tryAllow 0, .getState 25, .reset 30, .allow 31]).capacity) :=
  ⟨by decide, by decide, by decide,
    tokens_within_bounds_no_overflow 2 10 0 [.tryAllow 0, .getState 25, .reset 30, .allow 31]
      (by decide) (by decide) (by decide)⟩

/-! Capacity-0 buckets. -/

theorem refill_cap0 {tb : TokenBucket} (h0 : tb.capacity = 0) (h1 : tb.tokens = 0)
    (now : Int) : (refill tb now).capacity = 0 ∧ (refill tb now).tokens = 0 := by
  simp only [refill]
  split
  · exact ⟨h0, by simp [h0, h1]; omega⟩
  · exact ⟨h0, h1⟩

theorem applyOp_cap0 {tb : TokenBucket} (h0 : tb.capacity = 0) (h1 : tb.tokens = 0)
    (op : Op) : (applyOp tb op).capacity = 0 ∧ (applyOp tb op).tokens = 0 := by
  cases op with
  | tryAllow now =>
    obtain ⟨hc, ht⟩ := refill_cap0 h0 h1 now
    simp only [applyOp, TryAllow]
    rw [if_neg (by omega)]
    exact ⟨hc, ht⟩
  | allow now =>
    obtain ⟨hc, ht⟩ := refill_cap0 h0 h1 now
    simp only [applyOp, Allow]
    rw [if_neg (by omega)]
    exact ⟨hc, ht⟩
  | reset now => exact ⟨h0, h0⟩
  | getState now => exact refill_cap0 h0 h1 now

theorem runOps_cap0 (tb : TokenBucket) (h0 : tb.capacity = 0) (h1 : tb.tokens = 0)
    (ops : List Op) : (runOps tb ops).capacity = 0 ∧ (runOps tb ops).tokens = 0 := by
  induction ops generalizing tb with
  | nil => exact ⟨h0, h1⟩
  | cons op rest ih =>
    obtain ⟨hc, ht⟩ := applyOp_cap0 h0 h1 op
    exact ih _ hc ht

/-- Claim C4 theorem: on a bucket constructed with capacity 0, after any
serialized operation sequence and at any instant, `TryAllow` returns
`false`, the reported state is empty (`tokens <= 0`), and `Utilization`
is exactly `0.0` via the guarded `capacity == 0` branch. -/
theorem zero_capacity_always_denies (r t0 : Int) (ops : List Op) (t : Int)
    (_hr : 0 < r) :
    (TryAllow (runOps (NewCustomTokenBucket 0 r t0) ops) t).1 = false ∧
    (GetState (runOps (NewCustomTokenBucket 0 r t0) ops) t).1.IsEmpty = true ∧
    (GetState (runOps (NewCustomTokenBucket 0 r t0) ops) t).1.Utilization = 0 := by
  obtain ⟨hc, ht⟩ := runOps_cap0 (NewCustomTokenBucket 0 r t0) rfl rfl ops
  obtain ⟨hc', ht'⟩ := refill_cap0 hc ht t
  refine ⟨?_, ?_, ?_⟩
  · simp only [TryAllow]
    rw [if_neg (by omega)]
  · simp [GetState, BucketState.IsEmpty, ht']
  · simp [GetState, BucketState.Utilization, hc']

/-- Witness for C4: a capacity-0 bucket polled after a consumed admission
attempt and a long delay. -/
theorem zero_capacity_always_denies_witness :
    0 < (5 : Int) ∧
    ((TryAllow (runOps (NewCustomTokenBucket 0 5 0) [.tryAllow 3, .getState 100]) 200).1 = false ∧
     (GetState (runOps (NewCustomTokenBucket 0 5 0) [.tryAllow 3, .getState 100]) 200).1.IsEmpty = true ∧
     (GetState (runOps (NewCustomTokenBucket 0 5 0) [.tryAllow 3, .getState 100]) 200).1.Utilization = 0) :=
  ⟨by decide, zero_capacity_always_denies 5 0 [.tryAllow 3, .getState 100] 200 (by decide)⟩

/-! `GetState` reads. -/

/-- Counterexample to C9 as stated: on the bucket reached from
`NewCustomTokenBucket 1 10 0` by one admission at instant 0, two
consecutive `GetState` calls at instants 9 and 10 — only one time unit
apart, less than the refill interval 10, with no intervening admission —
report `Tokens = 0` and then `Tokens = 1`, because the second call crosses
the refill boundary `lastRefill + refillRate = 10`. -/
theorem getState_refill_boundary_counterexample :
    (GetState (TryAllow (NewCustomTokenBucket 1 10 0) 0).2 9).1.Tokens = 0 ∧
    (GetState (GetState (TryAllow (NewCustomTokenBucket 1 10 0) 0).2 9).2 10).1.Tokens = 1 ∧
    ((10 : Int) - 9 < 10) ∧
    (0 : Int) ≠ 1 := by
  refine ⟨by decide, by decide, by decide, by decide⟩

/-- Claim C9 theorem (amended): `GetState` performs exactly the refill
accounting (its post-state is `refill`, no token is consumed), and two
consecutive `GetState` calls with no intervening admission report identical
`Tokens` provided the second call stays within one `refillRate` of the
refill instant established by the first call. -/
theorem getState_idempotent_within_interval (tb : TokenBucket) (t1 t2 : Int)
    (hr : 0 < tb.refillRate)
    (h : t2 - (GetState tb t1).2.lastRefill < tb.refillRate) :
    (GetState tb t1).2 = refill tb t1 ∧
    (GetState (GetState tb t1).2 t2).1.Tokens = (GetState tb t1).1.Tokens := by
  refine ⟨rfl, ?_⟩
  have hr1 : 0 < (refill tb t1).refillRate := by rw [refill_refillRate]; exact hr
  have h1 : t2 - (refill tb t1).lastRefill < (refill tb t1).refillRate := by
    rw [refill_refillRate]; exact h
  show (refill (refill tb t1) t2).tokens = (refill tb t1).tokens
  rw [refill_noop hr1 h1]

/-- Witness for C9: two reads at instants 3 and 9 on a fresh capacity-2
bucket with interval 10. -/
theorem getState_idempotent_within_interval_witness :
    0 < (NewCustomTokenBucket 2 10 0).refillRate ∧
    (9 : Int) - (GetState (NewCustomTokenBucket 2 10 0) 3).2.lastRefill
      < (NewCustomTokenBucket 2 10 0).refillRate ∧
    ((GetState (NewCustomTokenBucket 2 10 0) 3).2 = refill (NewCustomTokenBucket 2 10 0) 3 ∧
     (GetState (GetState (NewCustomTokenBucket 2 10 0) 3).2 9).1.Tokens
       = (GetState (NewCustomTokenBucket 2 10 0) 3).1.Tokens) :=
  ⟨by decide, by decide,
    getState_idempotent_within_interval (NewCustomTokenBucket 2 10 0) 3 9
      (by decide) (by decide)⟩

/-! Fresh-bucket admission counting. -/

theorem tryAllowRun_consumes (nows : List Int) : ∀ (k : Nat) (tb : TokenBucket),
    tb.tokens = (k : Int) → 0 < tb.refillRate →
    (∀ t ∈ nows, t - tb.lastRefill < tb.refillRate) → nows.length = k + 1 →
    (tryAllowRun tb nows).1 = List.replicate k true ++ [false] := by
  induction nows with
  | nil =>
    intro k tb _ _ _ hlen
    simp at hlen
  | cons now rest ih =>
    intro k tb htok hr hmem hlen
    have hnoop : refill tb now = tb := refill_noop hr (hmem now (by simp))
    simp only [List.length_cons] at hlen
    cases k with
    | zero =>
      have hrest : rest = [] := by
        have h0 : rest.length = 0 := by omega
        exact List.length_eq_zero.mp h0
      subst hrest
      simp only [tryAllowRun, TryAllow, hnoop]
      rw [if_neg (by omega)]
      rfl
    | succ j =>
      have hpos : tb.tokens > 0 := by omega
      have htok' : ({ tb with tokens := tb.tokens - 1 } : TokenBucket).tokens = (j : Int) := by
        simp; omega
      have hlen' : rest.length = j + 1 := by omega
      have hres := ih j { tb with tokens := tb.tokens - 1 } htok' hr
        (fun t ht => hmem t (List.mem_cons_of_mem _ ht)) hlen'
      simp only [tryAllowRun, TryAllow, hnoop]
      rw [if_pos hpos]
      rcases hrun : tryAllowRun { tb with tokens := tb.tokens - 1 } rest with ⟨res, tbf⟩
      rw [hrun] at hres
      simp only [hrun]
      simp only [List.replicate_succ, List.cons_append]
      exact congrArg (List.cons true) hres

/-- Claim C3 theorem: for every capacity `C >= 1` and positive refill
interval, a fresh bucket polled `C + 1` times at instants that all stay
within one interval of construction returns `true` for the first `C`
`TryAllow` calls and `false` for the `(C+1)`-th. -/
theorem fresh_bucket_admits_capacity_then_denies (C : Nat) (r t0 : Int)
    (nows : List Int) (_hC : 1 ≤ C) (hr : 0 < r) (hlen : nows.length = C + 1)
    (hmem : ∀ t ∈ nows, t - t0 < r) :
    (tryAllowRun (NewCustomTokenBucket (C : Int) r t0) nows).1
      = List.replicate C true ++ [false] :=
  tryAllowRun_consumes nows C (NewCustomTokenBucket (C : Int) r t0) rfl hr hmem hlen

/-- Witness for C3: capacity 1, interval 10, polls at instants 0 and 5. -/
theorem fresh_bucket_admits_capacity_then_denies_witness :
    1 ≤ 1 ∧ 0 < (10 : Int) ∧ ([(0 : Int), 5].length = 1 + 1) ∧
    (∀ t ∈ [(0 : Int), 5], t - 0 < 10) ∧
    (tryAllowRun (NewCustomTokenBucket ((1 : Nat) : Int) 10 0) [0, 5]).1
      = List.replicate 1 true ++ [false] :=
  ⟨by decide, by decide, by decide, by decide,
    fresh_bucket_admits_capacity_then_denies 1 10 0 [0, 5]
      (by decide) (by decide) (by decide) (by decide)⟩

/-! Admission accounting over serialized concurrent traces. -/

theorem stepStats_measure (s : RunStats) (op : Op) :
    statsMeasure (stepStats s op) = statsMeasure s := by
  cases op with
  | tryAllow now =>
    by_cases hp : (refill s.tb now).tokens > 0 <;>
      simp [stepStats, statsMeasure, TryAllow, refillAdded, hp] <;> omega
  | allow now =>
    by_cases hp : (refill s.tb now).tokens > 0 <;>
      simp [stepStats, statsMeasure, Allow, refillAdded, hp] <;> omega
  | reset now =>
    simp [stepStats, statsMeasure, Reset]
    omega
  | getState now =>
    simp [stepStats, statsMeasure, GetState, refillAdded]
    omega

theorem stepStats_wf {s : RunStats} (h : WF s.tb) (op : Op) : WF (stepStats s op).tb := by
  cases op with
  | tryAllow now => exact WF_tryAllow h now
  | allow now => exact WF_allow h now
  | reset now => exact WF_reset h now
  | getState now => exact WF_getState h now

theorem foldl_stepStats_measure (ops : List Op) : ∀ s : RunStats,
    statsMeasure (ops.foldl stepStats s) = statsMeasure s := by
  induction ops with
  | nil => intro s; rfl
  | cons op rest ih =>
    intro s
    rw [List.foldl_cons, ih (stepStats s op), stepStats_measure]

theorem foldl_stepStats_wf (ops : List Op) : ∀ s : RunStats, WF s.tb →
    WF ((ops.foldl stepStats s).tb) := by
  induction ops with
  | nil => intro s h; exact h
  | cons op rest ih =>
    intro s h
    exact ih (stepStats s op) (stepStats_wf h op)

/-- Counterexample to C8 as stated: with a `Reset` among the serialized
calls, admissions can exceed capacity plus refilled tokens.  On a
capacity-1 bucket, `TryAllow, Reset, TryAllow` all at instant 0 admit
twice with zero tokens refilled. -/
theorem admissions_exceed_capacity_with_reset :
    (runStats (NewCustomTokenBucket 1 10 0) [.tryAllow 0, .reset 0, .tryAllow 0]).admitted = 2 ∧
    (runStats (NewCustomTokenBucket 1 10 0) [.tryAllow 0, .reset 0, .tryAllow 0]).refilled = 0 ∧
    ¬ ((2 : Int) ≤ 1 + 0) := by
  refine ⟨by decide, by decide, by decide⟩

/-- Claim C8 theorem (amended): over any serialized trace of the mutex-
protected operations (each refill-and-decrement is one atomic step, so no
lost update occurs in the model), the total number of admissions never
exceeds capacity plus the tokens added by refill accounting plus the
tokens restored by `Reset` calls. -/
theorem admissions_bounded (capacity r t0 : Int) (ops : List Op)
    (hcap : 0 ≤ capacity) (_hr : 0 < r) :
    ((runStats (NewCustomTokenBucket capacity r t0) ops).admitted : Int)
      ≤ capacity + (runStats (NewCustomTokenBucket capacity r t0) ops).refilled
        + (runStats (NewCustomTokenBucket capacity r t0) ops).resetAdded := by
  have hm := foldl_stepStats_measure ops
    { tb := NewCustomTokenBucket capacity r t0, admitted := 0, refilled := 0, resetAdded := 0 }
  have hwf := foldl_stepStats_wf ops
    { tb := NewCustomTokenBucket capacity r t0, admitted := 0, refilled := 0, resetAdded := 0 }
    ⟨hcap, le_refl _⟩
  obtain ⟨h0, _⟩ := hwf
  simp only [statsMeasure, runStats, NewCustomTokenBucket] at hm h0 ⊢
  omega

/-- Witness for C8: the spec's own sizing — 200 serialized `TryAllow`
calls (10 threads of 20 calls each) against capacity 100, all at instant
0. -/
theorem admissions_bounded_witness :
    0 ≤ (100 : Int) ∧ 0 < (10 : Int) ∧
    ((runStats (NewCustomTokenBucket 100 10 0)
        (List.replicate 200 (Op.tryAllow 0))).admitted : Int)
      ≤ 100 + (runStats (NewCustomTokenBucket 100 10 0)
          (List.replicate 200 (Op.tryAllow 0))).refilled
        + (runStats (NewCustomTokenBucket 100 10 0)
          (List.replicate 200 (Op.tryAllow 0))).resetAdded :=
  ⟨by decide, by decide,
    admissions_bounded 100 10 0 (List.replicate 200 (Op.tryAllow 0))
      (by decide) (by decide)⟩

/-! Cancellation of the `Wait` loop and its effect on `Do`. -/

theorem waitIter_succ_cons (tb : TokenBucket) (r : Int × Bool)
    (rest : List (Int × Bool)) (i : Nat) :
    waitIter tb (r :: rest) (i + 1) = waitIter (waitStep tb r) rest i := by
  simp [waitIter, List.take_succ_cons]

theorem waitRun_cancelled_of_no_permit (rounds : List (Int × Bool)) :
    ∀ (tb : TokenBucket) (k : Nat), k < rounds.length →
    (rounds.getD k (0, false)).2 = true →
    (∀ i ≤ k, (Allow (waitIter tb rounds i) (rounds.getD i (0, false)).1).1 = false) →
    (waitRun tb rounds).isCancelled = true := by
  induction rounds with
  | nil =>
    intro tb k hk
    simp at hk
  | cons r rest ih =>
    intro tb k hk hc hfail
    obtain ⟨now, canc⟩ := r
    have h0 := hfail 0 (Nat.zero_le k)
    rcases hA : Allow tb now with ⟨ok, tb'⟩
    rw [show waitIter tb ((now, canc) :: rest) 0 = tb from rfl,
      show (((now, canc) :: rest).getD 0 (0, false)).1 = now from rfl, hA] at h0
    have hok : ok = false := h0
    subst hok
    simp only [waitRun, hA]
    cases canc with
    | true => rfl
    | false =>
      cases k with
      | zero => simp at hc
      | succ j =>
        apply ih tb' j
        · simp only [List.length_cons] at hk
          omega
        · simpa using hc
        · intro i hi
          have hf := hfail (i + 1) (Nat.succ_le_succ hi)
          rw [waitIter_succ_cons] at hf
          have hstep : waitStep tb (now, false) = tb' := by
            simp [waitStep, hA]
          rw [hstep] at hf
          simpa using hf

/-- Claim C7 theorem: if the cancellation signal fires at some round of the
`Wait` loop and no permit was obtained at any attempt up to that round,
then `Wait` returns the cancellation, and `Do` returns no `Response` with
the cancellation classification — the request-build stage and the network
stage are never reached, for every possible build and network behavior. -/
theorem wait_cancelled_skips_network (tb : TokenBucket) (rounds : List (Int × Bool))
    (k : Nat) (hk : k < rounds.length) (hc : (rounds.getD k (0, false)).2 = true)
    (hfail : ∀ i ≤ k, (Allow (waitIter tb rounds i) (rounds.getD i (0, false)).1).1 = false) :
    (waitRun tb rounds).isCancelled = true ∧
    ∀ (D R : Type) (decode : String → Option (SchemaAPIError D))
      (rfc3339 : String → Option Int) (build : Option R)
      (net : R → Option HTTPResponse),
      DoRun decode rfc3339 (waitRun tb rounds).isCancelled build net
        = { response := none, error := some .cancelled
            requestBuilt := false, networkAttempted := false } := by
  have h1 := waitRun_cancelled_of_no_permit rounds tb k hk hc hfail
  refine ⟨h1, ?_⟩
  intro D R decode rfc3339 build net
  rw [h1]
  rfl

/-- Witness for C7: a capacity-0 bucket (every `Allow` attempt fails) with
the context cancelled at the first suspension point. -/
theorem wait_cancelled_skips_network_witness :
    0 < [((0 : Int), true)].length ∧
    ([((0 : Int), true)].getD 0 (0, false)).2 = true ∧
    (waitRun (NewCustomTokenBucket 0 1 0) [(0, true)]).isCancelled = true ∧
    DoRun (D := Unit) (R := Unit) (fun _ => none) (fun _ => none)
        (waitRun (NewCustomTokenBucket 0 1 0) [(0, true)]).isCancelled (some ())
        (fun _ => some example200)
      = { response := none, error := some .cancelled
          requestBuilt := false, networkAttempted := false } := by
  have h := wait_cancelled_skips_network (NewCustomTokenBucket 0 1 0) [(0, true)] 0
    (by decide) (by decide)
    (fun i hi => by
      have h0 : i = 0 := Nat.le_zero.mp hi
      subst h0
      decide)
  exact ⟨by decide, by decide, h.1,
    h.2 Unit Unit (fun _ => none) (fun _ => none) (some ()) (fun _ => some example200)⟩

/-! Response classification in `Do`. -/

theorem DoRun_net {D R : Type} (decode : String → Option (SchemaAPIError D))
    (rfc3339 : String → Option Int) (q : R) (net : R → Option HTTPResponse)
    (resp : HTTPResponse) (hnet : net q = some resp) :
    DoRun decode rfc3339 false (some q) net
      = { response := some resp
          error := Option.map DoError.classified (classifyStatus decode rfc3339 resp)
          requestBuilt := true, networkAttempted := true } := by
  show (match net q with
    | none =>
      ({ response := none, error := some .transportFailure
         requestBuilt := true, networkAttempted := true } : DoOutcome D)
    | some resp =>
      { response := some resp
        error := Option.map DoError.classified (classifyStatus decode rfc3339 resp)
        requestBuilt := true, networkAttempted := true }) = _
  rw [hnet]

theorem parseAPIError_statusCode {D : Type} (decode : String → Option (SchemaAPIError D))
    (body : String) (statusCode : Int) :
    (parseAPIError decode body statusCode).StatusCode = statusCode := by
  cases hd : decode body <;> simp [parseAPIError, hd]

/-- Claim C6 theorem: for every response `Do` receives — a 401 yields the
`Response` with an error distinguishable as authentication failure by
`IsAuthError`, regardless of body content; any other status `>= 400`
except 429 yields the `Response` with an `APIError` carrying
message/code/data decoded from the body, falling back to a generic error
whose message is the raw body text when decoding fails, never flagged as
an auth error; and any status `< 400` yields the `Response` with no
error. -/
theorem do_status_classification {D R : Type}
    (decode : String → Option (SchemaAPIError D)) (rfc3339 : String → Option Int)
    (q : R) (net : R → Option HTTPResponse) (resp : HTTPResponse)
    (hnet : net q = some resp) :
    (resp.status = 401 →
      (DoRun decode rfc3339 false (some q) net).response = some resp ∧
      (DoRun decode rfc3339 false (some q) net).error
        = some (.classified (.api (parseAPIError decode resp.body resp.status))) ∧
      IsAuthError (ClientError.api (parseAPIError decode resp.body resp.status)) = true) ∧
    (400 ≤ resp.status → resp.status ≠ 429 → resp.status ≠ 401 →
      (DoRun decode rfc3339 false (some q) net).response = some resp ∧
      (DoRun decode rfc3339 false (some q) net).error
        = some (.classified (.api
            { StatusCode := resp.status
              Message := match decode resp.body with | some e => e.Message | none => resp.body
              Code := match decode resp.body with | some e => e.Code | none => 0
              Data := match decode resp.body with | some e => e.Data | none => none })) ∧
      IsAuthError (ClientError.api (parseAPIError decode resp.body resp.status)) = false) ∧
    (resp.status < 400 →
      (DoRun decode rfc3339 false (some q) net).response = some resp ∧
      (DoRun decode rfc3339 false (some q) net).error = none) := by
  rw [DoRun_net decode rfc3339 q net resp hnet]
  refine ⟨?_, ?_, ?_⟩
  · intro h401
    refine ⟨rfl, ?_, ?_⟩
    · simp [classifyStatus, h401]
    · simp [IsAuthError, parseAPIError_statusCode, h401]
  · intro hge hne429 hne401
    refine ⟨rfl, ?_, ?_⟩
    · have hc : classifyStatus decode rfc3339 resp
          = some (.api (parseAPIError decode resp.body resp.status)) := by
        simp only [classifyStatus, if_neg hne429, if_pos hge]
      rw [hc]
      cases hd : decode resp.body <;> simp [parseAPIError, hd]
    · simp [IsAuthError, parseAPIError_statusCode, hne401]
  · intro hlt
    refine ⟨rfl, ?_⟩
    have hc : classifyStatus decode rfc3339 resp = none := by
      simp only [classifyStatus]
      rw [if_neg (by omega), if_neg (by omega)]
    rw [hc]
    rfl

/-- Witness for C6: a simulated 401 with a non-JSON body is flagged by
`IsAuthError`, with the raw body as the fallback message. -/
theorem do_status_classification_witness :
    ((fun (_ : Unit) => some example401) () = some example401) ∧
    example401.status = 401 ∧
    ((DoRun (D := Unit) (fun _ => none) (fun _ => none) false (some ())
        (fun _ => some example401)).response = some example401 ∧
     (DoRun (D := Unit) (fun _ => none) (fun _ => none) false (some ())
        (fun _ => some example401)).error
       = some (.classified (.api
           (parseAPIError (fun _ => none) example401.body example401.status))) ∧
     IsAuthError (ClientError.api
       (parseAPIError (D := Unit) (fun _ => none) example401.body example401.status)) = true) := by
  have h := do_status_classification (D := Unit) (R := Unit)
    (fun _ => none) (fun _ => none) () (fun _ => some example401) example401 rfl
  exact ⟨rfl, rfl, h.1 rfl⟩
